import Mathlib

/-!
Shallow embedding of `src/check-appointments.js` (Global Entry appointment
checker). The script parses a location configuration from the environment,
loads a persisted set of already-notified appointment keys, polls an
availability endpoint per location, emails on qualifying slots, and persists
the updated key set once at the end.

External effects are modelled by explicit parameters:
- the availability endpoint outcome per location is a `FetchOutcome`;
- the mail relay outcome of each `sendMail` attempt is an oracle
  `Nat → Bool` indexed by the number of prior send attempts in the run;
- the persisted store file is a `StoreFile`; JSON serialization of the
  string array is modelled at the value level (a `content` file holds the
  parsed array; `unreadable` and `corrupt` stand for a read error and a
  JSON parse error respectively);
- JavaScript `Set` objects are modelled as insertion-ordered duplicate-free
  lists, matching the iteration-order semantics of `Set`.
-/

namespace GlobalEntry

/-- JavaScript `String.prototype.split` with a single-character separator,
at the character-list level. `split` always returns a nonempty array;
splitting the empty string yields one empty field. -/
def splitChar (sep : Char) : List Char → List (List Char)
  | [] => [[]]
  | c :: cs =>
    match splitChar sep cs with
    | [] => [[]]
    | h :: t => if c = sep then [] :: h :: t else (c :: h) :: t

/-- JavaScript `s.split(sep)` for a one-character separator, on strings. -/
def jsSplit (sep : Char) (s : String) : List String :=
  (splitChar sep s.data).map List.asString

/-- JavaScript `arr[0]` on a string array known to be nonempty
(`split` output is never empty); the default is irrelevant. -/
def jsFirst : List String → String
  | [] => ""
  | h :: _ => h

/-- JavaScript `String.prototype.trim`: whitespace stripped from both ends,
modelled at the character-list level. -/
def jsTrim (s : String) : String :=
  (((s.data.dropWhile Char.isWhitespace).reverse.dropWhile
      Char.isWhitespace).reverse).asString

/-- Lexicographic comparison of character lists by code point, the order
JavaScript `<` uses on (ASCII) strings. -/
def charListLt : List Char → List Char → Bool
  | [], [] => false
  | [], _ :: _ => true
  | _ :: _, [] => false
  | a :: as, b :: bs =>
    if a < b then true
    else if b < a then false
    else charListLt as bs

/-- JavaScript string `<` (lexicographic). -/
def jsStrLt (a b : String) : Bool := charListLt a.data b.data

/-- A parsed location record (`{ id, name, targetDate }`), source lines 56-60. -/
structure LocationTarget where
  id : String
  name : String
  targetDate : String
deriving DecidableEq

/-- Body of the `map` in `parseLocations` (source lines 50-61): trim the
entry, split on colons, accept exactly three fields, else `null`. -/
def parseEntry (loc : String) : Option LocationTarget :=
  match jsSplit ':' (jsTrim loc) with
  | [i, n, t] => some { id := i, name := n, targetDate := t }
  | _ => none

/-- `parseLocations` (source lines 42-62). Returns the parsed records
together with the number of `Invalid location format` errors logged (one
per entry whose field count is not 3). The falsy-input early return
(source lines 43-48) logs a configuration error and yields no records and
no per-entry format errors. -/
def parseLocations (locationsString : String) : List LocationTarget × Nat :=
  if locationsString = "" then ([], 0)
  else
    let entries := jsSplit ',' locationsString
    (entries.filterMap parseEntry,
     entries.countP (fun e => (parseEntry e).isNone))

/-- The possible states of the persisted notified-appointments file:
missing, unreadable (read throws), present but not a JSON array of strings,
or present with a parsed string array. -/
inductive StoreFile where
  | absent : StoreFile
  | unreadable : StoreFile
  | corrupt : StoreFile
  | content : List String → StoreFile
deriving DecidableEq

/-- JavaScript `Set.prototype.add` on the insertion-ordered list model:
append the key if absent, otherwise leave the set unchanged. -/
def setAdd (s : List String) (k : String) : List String :=
  if k ∈ s then s else s ++ [k]

/-- JavaScript `new Set(array)`: deduplicate keeping first occurrences in
order. -/
def jsSetOfList (l : List String) : List String := l.foldl setAdd []

/-- `loadNotifiedAppointments` (source lines 67-77): return the parsed set
when the file exists and parses; on a missing file, a read error or a parse
error, log and return the empty set. -/
def loadNotifiedAppointments : StoreFile → List String
  | .content keys => jsSetOfList keys
  | _ => []

/-- `saveNotifiedAppointments` (source lines 82-88): overwrite the file
with the serialized set; on a write error, log and leave the file as it
was. `writeOk` is whether the write succeeds. -/
def saveNotifiedAppointments (notified : List String) (writeOk : Bool)
    (f : StoreFile) : StoreFile :=
  if writeOk then .content notified else f

/-- The environment variables the modelled claims depend on. `none` is an
unset variable. -/
structure Env where
  smtpUser : Option String
  smtpPass : Option String
  locationsVar : Option String
deriving DecidableEq

/-- JavaScript truthiness of an environment variable: set and nonempty. -/
def truthy : Option String → Bool
  | none => false
  | some s => !(s == "")

/-- The credential check of `createEmailTransporter` (source line 94). -/
def credsOk (env : Env) : Bool := truthy env.smtpUser && truthy env.smtpPass

/-- The error message thrown when credentials are missing (source line 95). -/
def credsMsg : String :=
  "Email credentials not configured. Set SMTP_USER and SMTP_PASS environment variables."

/-- `createEmailTransporter` (source lines 93-98): throws when SMTP user or
password is falsy, otherwise yields a transporter (modelled as `Unit`). -/
def createEmailTransporter (env : Env) : Except String Unit :=
  if credsOk env then .ok () else .error credsMsg

/-- The message used for a modelled mail-relay transport failure. -/
def sendFailMsg : String := "send failed"

/-- The `transporter.sendMail` call: succeeds or throws, according to the
outcome the mail relay produces for this attempt. -/
def sendMail (outcome : Bool) : Except String Unit :=
  if outcome then .ok () else .error sendFailMsg

/-- `sendEmail` (source lines 103-120). The transporter is created BEFORE
the try block, so a credential error propagates to the caller; a `sendMail`
error is caught and turned into `false`; success returns `true`. -/
def sendEmail (env : Env) (outcome : Bool) : Except String Bool :=
  match createEmailTransporter env with
  | .error e => .error e
  | .ok _ =>
    match sendMail outcome with
    | .ok _ => .ok true
    | .error _ => .ok false

/-- An appointment slot; only `startTimestamp` is consumed. -/
structure Slot where
  startTimestamp : String
deriving DecidableEq

/-- Outcome of the availability request for one location: a response whose
`data` may be missing, or a transport / non-2xx error. -/
inductive FetchOutcome where
  | success : Option (List Slot) → FetchOutcome
  | failure : String → FetchOutcome
deriving DecidableEq

/-- The `axios.get` call: yields the response data or throws. -/
def axiosGet : FetchOutcome → Except String (Option (List Slot))
  | .success d => .ok d
  | .failure m => .error m

/-- `checkLocation` (source lines 125-142): `response.data || []` on
success; the catch logs the error and returns `[]`. -/
def checkLocation (fr : FetchOutcome) : Except String (List Slot) :=
  match axiosGet fr with
  | .ok d => .ok (d.getD [])
  | .error _ => .ok []

/-- The slot list `checkLocation` hands to the orchestrator. -/
def fetchedSlots (fr : FetchOutcome) : List Slot :=
  match checkLocation fr with
  | .ok s => s
  | .error _ => []

/-- `slot.startTimestamp.split('T')[0]` (source line 197). -/
def appointmentDateOf (ts : String) : String := jsFirst (jsSplit 'T' ts)

/-- The appointment key template literal (source line 198). -/
def notificationKey (locId ts : String) : String := locId ++ "_" ++ ts

/-- Mutable state of one `checkAllLocations` run: the notified set, the
new-notification counter, and the number of send attempts so far (the
latter only indexes the mail-relay oracle). -/
structure RunState where
  notified : List String
  newNotifications : Nat
  sendCount : Nat
deriving DecidableEq

/-- The per-slot body (source lines 196-231): compare the date portion
against the target date, skip already-notified keys, send the email, and on
success record the key and bump the counter. -/
def processSlot (env : Env) (oracle : Nat → Bool) (loc : LocationTarget)
    (st : RunState) (slot : Slot) : Except String RunState :=
  let appointmentDate := appointmentDateOf slot.startTimestamp
  let appointmentKey := notificationKey loc.id slot.startTimestamp
  if jsStrLt appointmentDate loc.targetDate then
    if appointmentKey ∈ st.notified then .ok st
    else
      match sendEmail env (oracle st.sendCount) with
      | .error e => .error e
      | .ok sent =>
        if sent then
          .ok { notified := setAdd st.notified appointmentKey,
                newNotifications := st.newNotifications + 1,
                sendCount := st.sendCount + 1 }
        else
          .ok { st with sendCount := st.sendCount + 1 }
  else .ok st

/-- The `for (const slot of slots)` loop. -/
def processSlots (env : Env) (oracle : Nat → Bool) (loc : LocationTarget) :
    RunState → List Slot → Except String RunState
  | st, [] => .ok st
  | st, slot :: rest =>
    match processSlot env oracle loc st slot with
    | .error e => .error e
    | .ok st' => processSlots env oracle loc st' rest

/-- One iteration of the per-location loop (source lines 181-237): fetch,
`continue` on an empty slot list, otherwise run the slot loop. The courtesy
delay has no effect on the state. -/
def processLocation (env : Env) (oracle : Nat → Bool) (fr : FetchOutcome)
    (st : RunState) (loc : LocationTarget) : Except String RunState :=
  match checkLocation fr with
  | .error e => .error e
  | .ok slots =>
    if slots.length = 0 then .ok st
    else processSlots env oracle loc st slots

/-- The `for (const location of CONFIG.locations)` loop. -/
def processLocations (env : Env) (oracle : Nat → Bool)
    (fetch : String → FetchOutcome) :
    RunState → List LocationTarget → Except String RunState
  | st, [] => .ok st
  | st, loc :: rest =>
    match processLocation env oracle (fetch loc.id) st loc with
    | .error e => .error e
    | .ok st' => processLocations env oracle fetch st' rest

/-- Result of a whole run: `exited c` for an explicit `process.exit(c)`,
`fatal` for an uncaught exception reaching the top-level catch, and
`completed st writes` for a normal completion, where `writes` lists the
key-set arguments of every `saveNotifiedAppointments` call of the run. -/
inductive RunResult where
  | exited : Nat → RunResult
  | fatal : String → RunResult
  | completed : RunState → List (List String) → RunResult
deriving DecidableEq

/-- `CONFIG.locations` (source line 34): `parseLocations(process.env.LOCATIONS || '')`. -/
def locationsOf (env : Env) : List LocationTarget :=
  (parseLocations (env.locationsVar.getD "")).1

/-- The run state at the start of the location loop: the loaded notified
set and zeroed counters. -/
def initState (file : StoreFile) : RunState :=
  { notified := loadNotifiedAppointments file, newNotifications := 0,
    sendCount := 0 }

/-- `checkAllLocations` (source lines 162-251) together with the top-level
catch (source lines 254-257): exit 1 when no locations are configured, load
the store, run the location loop, save once, summarize; an uncaught
exception is fatal. -/
def checkAllLocations (env : Env) (file : StoreFile)
    (fetch : String → FetchOutcome) (oracle : Nat → Bool) : RunResult :=
  let locs := locationsOf env
  if locs.length = 0 then .exited 1
  else
    match processLocations env oracle fetch (initState file) locs with
    | .error e => .fatal e
    | .ok st => .completed st [st.notified]

/-- The process exit code of a run. -/
def exitCode : RunResult → Nat
  | .exited c => c
  | .fatal _ => 1
  | .completed _ _ => 0

/-! ### Helper lemmas -/

lemma splitChar_cons_head (sep : Char) (l : List Char) :
    ∃ t, splitChar sep l = (l.takeWhile (fun c => !(c == sep))) :: t := by
  induction l with
  | nil => exact ⟨[], rfl⟩
  | cons c cs ih =>
    obtain ⟨t, ht⟩ := ih
    by_cases hc : c = sep
    · refine ⟨(cs.takeWhile (fun x => !(x == sep))) :: t, ?_⟩
      simp [splitChar, ht, List.takeWhile_cons, hc]
    · refine ⟨t, ?_⟩
      simp [splitChar, ht, List.takeWhile_cons, hc]

lemma appointmentDateOf_eq_takeWhile (ts : String) :
    appointmentDateOf ts = (ts.data.takeWhile (fun c => !(c == 'T'))).asString := by
  obtain ⟨t, ht⟩ := splitChar_cons_head 'T' ts.data
  simp [appointmentDateOf, jsSplit, ht, jsFirst]

lemma appointmentDateOf_of_not_mem (ts : String) (h : 'T' ∉ ts.data) :
    appointmentDateOf ts = ts := by
  have h1 : ts.data.takeWhile (fun c => !(c == 'T')) = ts.data := by
    apply List.takeWhile_eq_self_iff.mpr
    intro c hc
    rw [Bool.not_eq_true', beq_eq_false_iff_ne]
    exact fun hcT => h (hcT ▸ hc)
  rw [appointmentDateOf_eq_takeWhile, h1]
  rfl

lemma mem_setAdd (s : List String) (k a : String) :
    a ∈ setAdd s k ↔ a = k ∨ a ∈ s := by
  unfold setAdd
  split
  · constructor
    · exact fun h => Or.inr h
    · rintro (rfl | h) <;> assumption
  · simp [List.mem_append, or_comm]

lemma setAdd_of_mem (s : List String) (k : String) (h : k ∈ s) :
    setAdd s k = s := by
  simp [setAdd, h]

lemma mem_foldl_setAdd (l : List String) :
    ∀ (acc : List String) (a : String),
      a ∈ l.foldl setAdd acc ↔ a ∈ acc ∨ a ∈ l := by
  induction l with
  | nil => simp
  | cons x xs ih =>
    intro acc a
    simp only [List.foldl_cons, ih, mem_setAdd, List.mem_cons]
    tauto

lemma mem_jsSetOfList (l : List String) (a : String) :
    a ∈ jsSetOfList l ↔ a ∈ l := by
  simp [jsSetOfList, mem_foldl_setAdd]

lemma length_filterMap_eq_countP {α β : Type} (f : α → Option β) (l : List α) :
    (l.filterMap f).length = l.countP (fun x => (f x).isSome) := by
  induction l with
  | nil => rfl
  | cons x xs ih =>
    cases h : f x <;>
      simp [List.filterMap_cons, List.countP_cons, h, ih]

lemma countP_add_countP_not {α : Type} (p : α → Bool) (l : List α) :
    l.countP p + l.countP (fun x => !(p x)) = l.length := by
  induction l with
  | nil => rfl
  | cons x xs ih =>
    cases h : p x <;> simp [List.countP_cons, h] <;> omega

lemma append_sep_inj (sep : Char) (l₁ r₁ l₂ r₂ : List Char)
    (h₁ : sep ∉ l₁) (h₂ : sep ∉ l₂)
    (h : l₁ ++ sep :: r₁ = l₂ ++ sep :: r₂) : l₁ = l₂ ∧ r₁ = r₂ := by
  induction l₁ generalizing l₂ with
  | nil =>
    cases l₂ with
    | nil => simpa using h
    | cons y ys =>
      exfalso
      apply h₂
      simp only [List.nil_append, List.cons_append, List.cons.injEq] at h
      exact h.1 ▸ List.mem_cons_self y ys
  | cons x xs ih =>
    cases l₂ with
    | nil =>
      exfalso
      apply h₁
      simp only [List.nil_append, List.cons_append, List.cons.injEq] at h
      exact h.1.symm ▸ List.mem_cons_self x xs
    | cons y ys =>
      simp only [List.cons_append, List.cons.injEq] at h
      obtain ⟨rfl, h2⟩ := h
      have hx : sep ∉ xs := fun hm => h₁ (List.mem_cons_of_mem _ hm)
      have hy : sep ∉ ys := fun hm => h₂ (List.mem_cons_of_mem _ hm)
      obtain ⟨e1, e2⟩ := ih ys hx hy h2
      exact ⟨by rw [e1], e2⟩

lemma notificationKey_data (i t : String) :
    (notificationKey i t).data = i.data ++ '_' :: t.data := by
  show (i ++ "_" ++ t).data = i.data ++ '_' :: t.data
  rw [String.data_append, String.data_append]
  simp

lemma notificationKey_inj (i₁ t₁ i₂ t₂ : String)
    (h₁ : '_' ∉ i₁.data) (h₂ : '_' ∉ i₂.data)
    (h : notificationKey i₁ t₁ = notificationKey i₂ t₂) :
    i₁ = i₂ ∧ t₁ = t₂ := by
  have hd : (notificationKey i₁ t₁).data = (notificationKey i₂ t₂).data := by rw [h]
  rw [notificationKey_data, notificationKey_data] at hd
  obtain ⟨e1, e2⟩ := append_sep_inj '_' _ _ _ _ h₁ h₂ hd
  refine ⟨?_, ?_⟩
  · cases i₁; cases i₂; exact congrArg String.mk e1
  · cases t₁; cases t₂; exact congrArg String.mk e2

lemma parseEntry_isSome (e : String) :
    (parseEntry e).isSome = ((jsSplit ':' (jsTrim e)).length == 3) := by
  unfold parseEntry
  rcases hs : jsSplit ':' (jsTrim e) with _ | ⟨a, _ | ⟨b, _ | ⟨c, _ | ⟨d, l⟩⟩⟩⟩ <;> rfl

/-- The per-slot qualification condition of source lines 203-204: the date
portion precedes the target date and the key has not been notified. -/
def qualifies (st : RunState) (loc : LocationTarget) (slot : Slot) : Prop :=
  jsStrLt (appointmentDateOf slot.startTimestamp) loc.targetDate = true ∧
  notificationKey loc.id slot.startTimestamp ∉ st.notified

instance (st : RunState) (loc : LocationTarget) (slot : Slot) :
    Decidable (qualifies st loc slot) := by
  unfold qualifies
  exact inferInstance

lemma checkLocation_eq (fr : FetchOutcome) :
    checkLocation fr = .ok (fetchedSlots fr) := by
  cases fr <;> rfl

lemma processSlot_cases (env : Env) (oracle : Nat → Bool)
    (loc : LocationTarget) (st : RunState) (slot : Slot) :
    processSlot env oracle loc st slot =
      if qualifies st loc slot then
        (if credsOk env = true then
          (if oracle st.sendCount = true then
            .ok { notified := setAdd st.notified
                    (notificationKey loc.id slot.startTimestamp),
                  newNotifications := st.newNotifications + 1,
                  sendCount := st.sendCount + 1 }
           else .ok { st with sendCount := st.sendCount + 1 })
         else .error credsMsg)
      else .ok st := by
  unfold processSlot sendEmail createEmailTransporter sendMail qualifies
  by_cases h1 : jsStrLt (appointmentDateOf slot.startTimestamp) loc.targetDate = true
  · by_cases h2 : notificationKey loc.id slot.startTimestamp ∈ st.notified
    · simp [h1, h2]
    · by_cases h3 : credsOk env = true
      · cases h4 : oracle st.sendCount <;> simp [h1, h2, h3, h4]
      · simp [h1, h2, h3]
  · simp [h1]

lemma processSlot_notified_mono (env : Env) (oracle : Nat → Bool)
    (loc : LocationTarget) (st : RunState) (slot : Slot) (st' : RunState)
    (h : processSlot env oracle loc st slot = .ok st') :
    ∀ k ∈ st.notified, k ∈ st'.notified := by
  intro k hk
  rw [processSlot_cases] at h
  split at h
  · split at h
    · split at h
      · injection h with h
        subst h
        exact (mem_setAdd _ _ _).mpr (Or.inr hk)
      · injection h with h
        subst h
        exact hk
    · cases h
  · injection h with h
    subst h
    exact hk

lemma processSlots_notified_mono (env : Env) (oracle : Nat → Bool)
    (loc : LocationTarget) :
    ∀ (slots : List Slot) (st st' : RunState),
      processSlots env oracle loc st slots = .ok st' →
      ∀ k ∈ st.notified, k ∈ st'.notified := by
  intro slots
  induction slots with
  | nil =>
    intro st st' h k hk
    cases h
    exact hk
  | cons s rest ih =>
    intro st st' h k hk
    unfold processSlots at h
    rcases hps : processSlot env oracle loc st s with e | st₁ <;> rw [hps] at h
    · cases h
    · exact ih st₁ st' h k (processSlot_notified_mono env oracle loc st s st₁ hps k hk)

lemma processLocation_notified_mono (env : Env) (oracle : Nat → Bool)
    (fr : FetchOutcome) (st : RunState) (loc : LocationTarget) (st' : RunState)
    (h : processLocation env oracle fr st loc = .ok st') :
    ∀ k ∈ st.notified, k ∈ st'.notified := by
  intro k hk
  unfold processLocation at h
  rw [checkLocation_eq] at h
  simp only at h
  split at h
  · cases h
    exact hk
  · exact processSlots_notified_mono env oracle loc _ st st' h k hk

lemma processLocations_notified_mono (env : Env) (oracle : Nat → Bool)
    (fetch : String → FetchOutcome) :
    ∀ (locs : List LocationTarget) (st st' : RunState),
      processLocations env oracle fetch st locs = .ok st' →
      ∀ k ∈ st.notified, k ∈ st'.notified := by
  intro locs
  induction locs with
  | nil =>
    intro st st' h k hk
    cases h
    exact hk
  | cons l rest ih =>
    intro st st' h k hk
    unfold processLocations at h
    rcases hpl : processLocation env oracle (fetch l.id) st l with e | st₁ <;>
      rw [hpl] at h
    · cases h
    · exact ih st₁ st' h k
        (processLocation_notified_mono env oracle (fetch l.id) st l st₁ hpl k hk)

lemma processSlots_nocreds_cases (env : Env) (oracle : Nat → Bool)
    (loc : LocationTarget) (h : credsOk env = false) :
    ∀ (slots : List Slot) (st : RunState),
      processSlots env oracle loc st slots = .ok st ∨
      processSlots env oracle loc st slots = .error credsMsg := by
  intro slots
  induction slots with
  | nil => intro st; exact Or.inl rfl
  | cons s rest ih =>
    intro st
    unfold processSlots
    rw [processSlot_cases, h]
    by_cases hq : qualifies st loc s
    · rw [if_pos hq]
      simp
    · rw [if_neg hq]
      simpa using ih st

lemma processSlots_nocreds_err (env : Env) (oracle : Nat → Bool)
    (loc : LocationTarget) (h : credsOk env = false) :
    ∀ (slots : List Slot) (st : RunState) (slot : Slot),
      slot ∈ slots → qualifies st loc slot →
      processSlots env oracle loc st slots = .error credsMsg := by
  intro slots
  induction slots with
  | nil =>
    intro st slot hmem
    cases hmem
  | cons s rest ih =>
    intro st slot hmem hq
    unfold processSlots
    rw [processSlot_cases, h]
    by_cases hqs : qualifies st loc s
    · rw [if_pos hqs]
      simp
    · rw [if_neg hqs]
      simp only
      rcases List.mem_cons.mp hmem with rfl | hrest
      · exact absurd hq hqs
      · exact ih st slot hrest hq

lemma processLocation_nocreds_cases (env : Env) (oracle : Nat → Bool)
    (fr : FetchOutcome) (st : RunState) (loc : LocationTarget)
    (h : credsOk env = false) :
    processLocation env oracle fr st loc = .ok st ∨
    processLocation env oracle fr st loc = .error credsMsg := by
  unfold processLocation
  rw [checkLocation_eq]
  simp only
  split
  · exact Or.inl rfl
  · exact processSlots_nocreds_cases env oracle loc h _ st

lemma processLocation_nocreds_err (env : Env) (oracle : Nat → Bool)
    (fr : FetchOutcome) (st : RunState) (loc : LocationTarget) (slot : Slot)
    (h : credsOk env = false) (hmem : slot ∈ fetchedSlots fr)
    (hq : qualifies st loc slot) :
    processLocation env oracle fr st loc = .error credsMsg := by
  unfold processLocation
  rw [checkLocation_eq]
  simp only
  split
  · rename_i hlen
    rw [List.length_eq_zero.mp hlen] at hmem
    cases hmem
  · exact processSlots_nocreds_err env oracle loc h _ st slot hmem hq

lemma processLocations_nocreds_err (env : Env) (oracle : Nat → Bool)
    (fetch : String → FetchOutcome) (h : credsOk env = false) :
    ∀ (locs : List LocationTarget) (st : RunState) (loc : LocationTarget)
      (slot : Slot), loc ∈ locs → slot ∈ fetchedSlots (fetch loc.id) →
      qualifies st loc slot →
      processLocations env oracle fetch st locs = .error credsMsg := by
  intro locs
  induction locs with
  | nil =>
    intro st loc slot hmem
    cases hmem
  | cons l rest ih =>
    intro st loc slot hmem hslot hq
    unfold processLocations
    rcases List.mem_cons.mp hmem with rfl | hrest
    · rw [processLocation_nocreds_err env oracle (fetch loc.id) st loc slot h
        hslot hq]
    · rcases processLocation_nocreds_cases env oracle (fetch l.id) st l h with
        hc | hc <;> rw [hc]
      exact ih st loc slot hrest hslot hq

lemma checkAllLocations_eq (env : Env) (file : StoreFile)
    (fetch : String → FetchOutcome) (oracle : Nat → Bool) :
    checkAllLocations env file fetch oracle =
      if (locationsOf env).length = 0 then .exited 1
      else
        match processLocations env oracle fetch (initState file)
            (locationsOf env) with
        | .error e => .fatal e
        | .ok stf => .completed stf [stf.notified] := rfl

lemma isNone_eq_not_isSome {α : Type} (o : Option α) :
    o.isNone = !o.isSome := by
  cases o <;> rfl

/-! ### Claim theorems -/

/-- Claim C10: the appointmentDate used in the qualification comparison is
the substring of `slot.startTimestamp` strictly before its first `T`
character; when the timestamp contains no `T`, the whole timestamp string
is used. -/
theorem C10_appointment_date_before_first_T (ts noT : String)
    (h : 'T' ∉ noT.data) :
    appointmentDateOf ts = (ts.data.takeWhile (fun c => !(c == 'T'))).asString ∧
    appointmentDateOf noT = noT :=
  ⟨appointmentDateOf_eq_takeWhile ts, appointmentDateOf_of_not_mem noT h⟩

/-- Witness for C10 at a dated timestamp and a T-free string. -/
theorem C10_witness :
    appointmentDateOf "2025-03-15T09:00:00" =
      (("2025-03-15T09:00:00" : String).data.takeWhile
        (fun c => !(c == 'T'))).asString ∧
    appointmentDateOf "2025-03-15" = "2025-03-15" :=
  C10_appointment_date_before_first_T "2025-03-15T09:00:00" "2025-03-15"
    (by decide)

/-- Claim C4: loading the store returns the empty set whenever the file is
absent, unreadable, or fails to parse as a JSON string array; the function
is total (it never raises), and a well-formed file yields its keys. -/
theorem C4_load_first_run_semantics (keys : List String) :
    loadNotifiedAppointments .absent = [] ∧
    loadNotifiedAppointments .unreadable = [] ∧
    loadNotifiedAppointments .corrupt = [] ∧
    loadNotifiedAppointments (.content keys) = jsSetOfList keys :=
  ⟨rfl, rfl, rfl, rfl⟩

/-- Claim C5: saving a set of keys and loading it back (with the write
succeeding and no intervening file modification) reproduces an equivalent
set: membership is preserved for every key. -/
theorem C5_save_load_roundtrip (notified : List String) (f : StoreFile)
    (k : String) :
    k ∈ loadNotifiedAppointments (saveNotifiedAppointments notified true f) ↔
      k ∈ notified := by
  show k ∈ jsSetOfList notified ↔ k ∈ notified
  exact mem_jsSetOfList notified k

/-- Counterexample to claim C2 as stated: the key is a bare concatenation
with an underscore separator, so two distinct (locationId, startTimestamp)
pairs can collide; after the two calls the set holds one key, not two. -/
theorem C2_counterexample_distinct_inputs_same_key :
    notificationKey "1_2" "x" = notificationKey "1" "2_x" ∧
    ¬(("1_2" : String) = "1" ∧ ("x" : String) = "2_x") ∧
    (jsSetOfList [notificationKey "1_2" "x",
      notificationKey "1" "2_x"]).length = 1 := by
  decide

/-- Claim C2 (amended): the key is a pure deterministic function of the
pair, and when the location ids contain no underscore, two pairs yield the
same key exactly when they are equal (so distinct such pairs always yield
distinct keys); re-adding an existing key leaves the set unchanged. -/
theorem C2_key_deterministic_injective (i₁ t₁ i₂ t₂ : String)
    (s : List String) (k : String)
    (h₁ : '_' ∉ i₁.data) (h₂ : '_' ∉ i₂.data) (hk : k ∈ s) :
    (notificationKey i₁ t₁ = notificationKey i₂ t₂ ↔ i₁ = i₂ ∧ t₁ = t₂) ∧
    setAdd s k = s := by
  refine ⟨⟨notificationKey_inj i₁ t₁ i₂ t₂ h₁ h₂, ?_⟩, setAdd_of_mem s k hk⟩
  rintro ⟨rfl, rfl⟩
  rfl

/-- Witness for the amended C2 at concrete underscore-free ids. -/
theorem C2_witness :
    (notificationKey "5140" "2025-03-15T09:00:00" =
        notificationKey "5183" "2025-03-15T09:00:00" ↔
      ("5140" : String) = "5183" ∧
        ("2025-03-15T09:00:00" : String) = "2025-03-15T09:00:00") ∧
    setAdd ["a"] "a" = ["a"] :=
  C2_key_deterministic_injective "5140" "2025-03-15T09:00:00" "5183"
    "2025-03-15T09:00:00" ["a"] "a" (by decide) (by decide) (by decide)

/-- Claim C6: the availability fetch either yields the endpoint slot list
or, on any failure, an empty list; it never propagates an exception
(`checkLocation` always returns an `ok` value), and a location whose fetch
failed is skipped while the loop continues with the remaining locations
unchanged. -/
theorem C6_fetch_failure_recovered (fr : FetchOutcome) (m : String)
    (env : Env) (oracle : Nat → Bool) (st : RunState) (loc : LocationTarget)
    (rest : List LocationTarget) (fetch : String → FetchOutcome)
    (hfr : fetch loc.id = .failure m) :
    checkLocation fr = .ok (fetchedSlots fr) ∧
    checkLocation (.failure m) = .ok [] ∧
    processLocations env oracle fetch st (loc :: rest) =
      processLocations env oracle fetch st rest := by
  refine ⟨checkLocation_eq fr, rfl, ?_⟩
  have hstep : processLocations env oracle fetch st (loc :: rest) =
      match processLocation env oracle (fetch loc.id) st loc with
      | .error e => .error e
      | .ok st' => processLocations env oracle fetch st' rest := rfl
  rw [hstep, hfr]
  rfl

/-- Concrete environment with credentials and one configured location,
used by witnesses. -/
def envOk : Env :=
  { smtpUser := some "u", smtpPass := some "p",
    locationsVar := some "5140:JFK:2025-04-01" }

/-- Concrete environment with unset SMTP credentials. -/
def envNoCreds : Env :=
  { smtpUser := none, smtpPass := none,
    locationsVar := some "5140:JFK:2025-04-01" }

/-- The location record envOk parses to. -/
def loc0 : LocationTarget :=
  { id := "5140", name := "JFK", targetDate := "2025-04-01" }

/-- A slot earlier than the target date of loc0. -/
def slot0 : Slot := { startTimestamp := "2025-03-15T09:00:00" }

/-- The empty initial run state. -/
def st0 : RunState := { notified := [], newNotifications := 0, sendCount := 0 }

/-- A mail-relay oracle on which every send succeeds. -/
def oracleUp : Nat → Bool := fun _ => true

/-- A mail-relay oracle on which every send fails. -/
def oracleDown : Nat → Bool := fun _ => false

/-- A fetch outcome that always fails with a timeout. -/
def fetchDown : String → FetchOutcome := fun _ => .failure "timeout"

/-- A fetch outcome that always returns the single slot slot0. -/
def fetchSlot0 : String → FetchOutcome := fun _ => .success (some [slot0])

/-- Witness for C6: a network failure on the only configured location. -/
theorem C6_witness :
    checkLocation (.failure "timeout") = .ok (fetchedSlots (.failure "timeout")) ∧
    checkLocation (.failure "timeout") = .ok [] ∧
    processLocations envOk oracleUp fetchDown st0 (loc0 :: []) =
      processLocations envOk oracleUp fetchDown st0 [] :=
  C6_fetch_failure_recovered (.failure "timeout") "timeout" envOk oracleUp
    st0 loc0 [] fetchDown rfl

/-- Claim C3: for a nonempty configuration string, parsing yields exactly
one record per well-formed entry (trimmed field count 3) and logs exactly
one format error per malformed entry, the two counts summing to the number
of entries; the empty input yields an empty list without aborting; any
three-field entry is accepted verbatim, its fields unvalidated. -/
theorem C3_parse_well_formed_counts (s e a b c : String)
    (hs : s ≠ "") (he : e ∈ jsSplit ',' s)
    (habc : jsSplit ':' (jsTrim e) = [a, b, c]) :
    (parseLocations s).1.length =
      (jsSplit ',' s).countP
        (fun x => (jsSplit ':' (jsTrim x)).length == 3) ∧
    (parseLocations s).2 =
      (jsSplit ',' s).countP
        (fun x => !((jsSplit ':' (jsTrim x)).length == 3)) ∧
    (parseLocations s).1.length + (parseLocations s).2 =
      (jsSplit ',' s).length ∧
    parseLocations "" = ([], 0) ∧
    ({ id := a, name := b, targetDate := c } : LocationTarget) ∈
      (parseLocations s).1 := by
  have hp : parseLocations s =
      ((jsSplit ',' s).filterMap parseEntry,
       (jsSplit ',' s).countP (fun x => (parseEntry x).isNone)) := by
    unfold parseLocations
    rw [if_neg hs]
  have hlen : (parseLocations s).1.length =
      (jsSplit ',' s).countP (fun x => (parseEntry x).isSome) := by
    rw [hp]
    exact length_filterMap_eq_countP parseEntry _
  refine ⟨?_, ?_, ?_, rfl, ?_⟩
  · rw [hlen]
    simp only [parseEntry_isSome]
  · rw [hp]
    simp only [isNone_eq_not_isSome, parseEntry_isSome]
  · rw [hlen, hp]
    simp only [isNone_eq_not_isSome]
    exact countP_add_countP_not _ _
  · rw [hp]
    simp only [List.mem_filterMap]
    refine ⟨e, he, ?_⟩
    unfold parseEntry
    rw [habc]

/-- Witness for C3 on a configuration with one well-formed and one
malformed entry. -/
theorem C3_witness :
    (parseLocations "5140:JFK Terminal 4:2025-04-01,bad").1.length =
      (jsSplit ',' "5140:JFK Terminal 4:2025-04-01,bad").countP
        (fun x => (jsSplit ':' (jsTrim x)).length == 3) ∧
    (parseLocations "5140:JFK Terminal 4:2025-04-01,bad").2 =
      (jsSplit ',' "5140:JFK Terminal 4:2025-04-01,bad").countP
        (fun x => !((jsSplit ':' (jsTrim x)).length == 3)) ∧
    (parseLocations "5140:JFK Terminal 4:2025-04-01,bad").1.length +
        (parseLocations "5140:JFK Terminal 4:2025-04-01,bad").2 =
      (jsSplit ',' "5140:JFK Terminal 4:2025-04-01,bad").length ∧
    parseLocations "" = ([], 0) ∧
    ({ id := "5140", name := "JFK Terminal 4", targetDate := "2025-04-01" } :
        LocationTarget) ∈
      (parseLocations "5140:JFK Terminal 4:2025-04-01,bad").1 :=
  C3_parse_well_formed_counts "5140:JFK Terminal 4:2025-04-01,bad"
    "5140:JFK Terminal 4:2025-04-01" "5140" "JFK Terminal 4" "2025-04-01"
    (by decide) (by decide) (by decide)

/-- Claim C1: with mail credentials present, processing one slot attempts
a notification (one more send) exactly when the qualification predicate
holds - the date portion lexicographically precedes the target date AND the
key is not yet notified - and the key is added and the counter incremented
exactly when that send also succeeds; in every other case the notified set
and the counter are unchanged. A slot at or after the target date, or an
already-notified key, falsifies the predicate, so it never triggers a
send. -/
theorem C1_notify_iff_qualifies (env : Env) (oracle : Nat → Bool)
    (loc : LocationTarget) (st st' : RunState) (slot : Slot)
    (hcreds : credsOk env = true)
    (h : processSlot env oracle loc st slot = .ok st') :
    st'.sendCount =
      (if qualifies st loc slot then st.sendCount + 1 else st.sendCount) ∧
    st'.notified =
      (if qualifies st loc slot ∧ oracle st.sendCount = true then
        setAdd st.notified (notificationKey loc.id slot.startTimestamp)
       else st.notified) ∧
    st'.newNotifications =
      (if qualifies st loc slot ∧ oracle st.sendCount = true then
        st.newNotifications + 1
       else st.newNotifications) := by
  rw [processSlot_cases] at h
  by_cases hq : qualifies st loc slot
  · rw [if_pos hq, if_pos hcreds] at h
    cases ho : oracle st.sendCount <;> rw [ho] at h <;> simp at h <;>
      subst h <;> simp [hq, ho]
  · rw [if_neg hq] at h
    simp at h
    subst h
    simp [hq]

/-- The run state after envOk, oracleUp, loc0, st0 process slot0. -/
def st1 : RunState :=
  { notified := ["5140_2025-03-15T09:00:00"], newNotifications := 1,
    sendCount := 1 }

/-- Witness for C1: a qualifying slot with a successful send. -/
theorem C1_witness :
    st1.sendCount =
      (if qualifies st0 loc0 slot0 then st0.sendCount + 1
       else st0.sendCount) ∧
    st1.notified =
      (if qualifies st0 loc0 slot0 ∧ oracleUp st0.sendCount = true then
        setAdd st0.notified (notificationKey loc0.id slot0.startTimestamp)
       else st0.notified) ∧
    st1.newNotifications =
      (if qualifies st0 loc0 slot0 ∧ oracleUp st0.sendCount = true then
        st0.newNotifications + 1
       else st0.newNotifications) :=
  C1_notify_iff_qualifies envOk oracleUp loc0 st0 st1 slot0 (by decide) rfl

/-- Claim C7: with credentials present, a qualifying slot whose mail send
fails yields false from sendEmail, leaves the notified set and the counter
unchanged (the key is not persisted as notified, so it is retried next
cycle), and the slot loop continues with the remaining slots. -/
theorem C7_send_failure_not_marked (env : Env) (oracle : Nat → Bool)
    (loc : LocationTarget) (st : RunState) (slot : Slot) (rest : List Slot)
    (hcreds : credsOk env = true)
    (hfail : oracle st.sendCount = false)
    (hq : qualifies st loc slot) :
    sendEmail env (oracle st.sendCount) = .ok false ∧
    processSlot env oracle loc st slot =
      .ok { st with sendCount := st.sendCount + 1 } ∧
    processSlots env oracle loc st (slot :: rest) =
      processSlots env oracle loc { st with sendCount := st.sendCount + 1 }
        rest := by
  have hsend : sendEmail env (oracle st.sendCount) = .ok false := by
    simp [sendEmail, createEmailTransporter, sendMail, hcreds, hfail]
  have hslot : processSlot env oracle loc st slot =
      .ok { st with sendCount := st.sendCount + 1 } := by
    rw [processSlot_cases, if_pos hq, if_pos hcreds, hfail]
    simp
  refine ⟨hsend, hslot, ?_⟩
  have hstep : processSlots env oracle loc st (slot :: rest) =
      match processSlot env oracle loc st slot with
      | .error e => .error e
      | .ok st' => processSlots env oracle loc st' rest := rfl
  rw [hstep, hslot]

/-- Witness for C7: the qualifying slot slot0 with a failing mail relay. -/
theorem C7_witness :
    sendEmail envOk (oracleDown st0.sendCount) = .ok false ∧
    processSlot envOk oracleDown loc0 st0 slot0 =
      .ok { st0 with sendCount := st0.sendCount + 1 } ∧
    processSlots envOk oracleDown loc0 st0 (slot0 :: []) =
      processSlots envOk oracleDown loc0
        { st0 with sendCount := st0.sendCount + 1 } [] :=
  C7_send_failure_not_marked envOk oracleDown loc0 st0 slot0 []
    (by decide) (by decide) (by decide)

/-- Claim C8: when the SMTP credentials are missing and a qualifying slot
is reached, transporter construction raises (sendEmail yields an error, not
false), the error escapes the send path, and the run ends fatally with a
non-zero exit code. -/
theorem C8_missing_creds_fatal (env : Env) (file : StoreFile)
    (fetch : String → FetchOutcome) (oracle : Nat → Bool)
    (loc : LocationTarget) (slot : Slot) (b : Bool)
    (hcreds : credsOk env = false)
    (hloc : loc ∈ locationsOf env)
    (hslot : slot ∈ fetchedSlots (fetch loc.id))
    (hq : qualifies (initState file) loc slot) :
    createEmailTransporter env = .error credsMsg ∧
    sendEmail env b = .error credsMsg ∧
    checkAllLocations env file fetch oracle = .fatal credsMsg ∧
    exitCode (checkAllLocations env file fetch oracle) = 1 := by
  have htr : createEmailTransporter env = .error credsMsg := by
    simp [createEmailTransporter, hcreds]
  have hrun : checkAllLocations env file fetch oracle = .fatal credsMsg := by
    rw [checkAllLocations_eq]
    have hne : (locationsOf env).length ≠ 0 := by
      cases hl : locationsOf env
      · rw [hl] at hloc
        cases hloc
      · simp [hl]
    rw [if_neg hne]
    rw [processLocations_nocreds_err env oracle fetch hcreds
      (locationsOf env) _ loc slot hloc hslot hq]
  refine ⟨htr, ?_, hrun, ?_⟩
  · simp [sendEmail, htr]
  · rw [hrun]
    rfl

/-- Witness for C8: unset credentials, one location, one qualifying slot. -/
theorem C8_witness :
    createEmailTransporter envNoCreds = .error credsMsg ∧
    sendEmail envNoCreds true = .error credsMsg ∧
    checkAllLocations envNoCreds .absent fetchSlot0 oracleUp =
      .fatal credsMsg ∧
    exitCode (checkAllLocations envNoCreds .absent fetchSlot0 oracleUp) =
      1 :=
  C8_missing_creds_fatal envNoCreds .absent fetchSlot0 oracleUp loc0 slot0
    true (by decide) (by decide) (by decide) (by decide)

/-- Claim C9: within a run, the notified set only grows - every key loaded
at the start is still in the set of a completed run - and a completed run
persists the set exactly once, with the final key set, after all locations
have been processed. -/
theorem C9_monotone_growth_single_save (env : Env) (file : StoreFile)
    (fetch : String → FetchOutcome) (oracle : Nat → Bool)
    (st : RunState) (writes : List (List String)) (k : String)
    (h : checkAllLocations env file fetch oracle = .completed st writes)
    (hk : k ∈ loadNotifiedAppointments file) :
    writes = [st.notified] ∧ k ∈ st.notified := by
  rw [checkAllLocations_eq] at h
  split at h
  · cases h
  · rcases hpl : processLocations env oracle fetch (initState file)
        (locationsOf env) with e | st₁ <;> rw [hpl] at h
    · cases h
    · injection h with h1 h2
      subst h1
      subst h2
      exact ⟨rfl,
        processLocations_notified_mono env oracle fetch (locationsOf env)
          _ _ hpl k hk⟩

/-- The final state of the C9 witness run. -/
def stA : RunState :=
  { notified := ["a"], newNotifications := 0, sendCount := 0 }

/-- Witness for C9: a completed run with a failing fetch keeps the loaded
key and saves exactly once. -/
theorem C9_witness :
    ([["a"]] : List (List String)) = [stA.notified] ∧ "a" ∈ stA.notified :=
  C9_monotone_growth_single_save envOk (.content ["a"]) fetchDown oracleUp
    stA [["a"]] "a" (by decide) (by decide)

end GlobalEntry
